import Mathlib

/-!
Shallow embedding of the remote command orchestration layer of the
`tauri-vm` repository, centred on the E2E verification harness
(`runE2EInvokeSuite` / `maybeRunE2EInvokeSuite` and their helpers
`withRetry`, `runStep`, `vmIsRunning`, `buildSshFromEnv`, `envFlag`,
`envText`) and the UI-side `withLog` ledger helper.

Modelling conventions:
* JS promises become pure values: a fallible asynchronous call is an
  `Except` value supplied by a deterministic oracle (`Backend`), one
  reply per invocation, indexed by how many calls of that kind happened
  before.  The nondeterminism of `withTimeout`'s race is folded into the
  oracle: a timeout firing is just the reply `.error (.timeout _)`.
* JS strings become `String`; `toLowerCase` is modelled by `Char.toLower`
  on each character and `trim` by dropping whitespace from both ends
  (the ASCII fragment both sides agree on).  The
  `localeCompare(..., sensitivity: "accent")`
  disjunct of `vmIsRunning` is case-insensitive equality, the same test
  as its `toLowerCase` twin, so the whole disjunction is modelled by the
  single case-insensitive comparison.
* `performance.now()` timestamps are `Int` values; `Math.round` is
  absorbed (the model works with already-rounded instants).  In the
  whole-suite composition the per-event durations are abstracted to `0`;
  the timing behaviour of `runStep` / `withLog` is modelled separately
  with explicit start/end instants.
* Thrown JS `Error`s become a typed error value.  Backend failures carry
  the taxonomy `ConnectionError` / `RemoteCommandError` / `TimeoutError`;
  errors thrown by the harness itself (reconciliation failures, missing
  key) are separate constructors, and `stepErrorMessage` renders the
  exact message string of the source.
-/

/-- JS `String.prototype.toLowerCase`, ASCII fragment: lower each
character. -/
def jsToLower (s : String) : String :=
  String.mk (s.data.map Char.toLower)

/-- JS `String.prototype.trim`: drop whitespace from both ends. -/
def jsTrim (s : String) : String :=
  String.mk (((s.data.dropWhile Char.isWhitespace).reverse.dropWhile
    Char.isWhitespace).reverse)

/-- `envFlag` from the harness: null is false, otherwise trim+lowercase
must be one of "1", "true", "yes", "on". -/
def envFlag (value : Option String) : Bool :=
  match value with
  | none => false
  | some v =>
    let text := jsToLower (jsTrim v)
    text == "1" || text == "true" || text == "yes" || text == "on"

/-- `envText` from the harness: null becomes none, and a string whose
trim is empty becomes none; otherwise the original string is kept. -/
def envText (value : Option String) : Option String :=
  match value with
  | none => none
  | some v => if jsTrim v ≠ "" then some v else none

/-- JS `Number(text)` as used on the port variable, for the
nonnegative-decimal-integer fragment: `none` stands for a value that is
not a finite nonnegative integer. -/
def jsToNat? (s : String) : Option Nat :=
  if s.data ≠ [] ∧ s.data.all Char.isDigit then
    some (s.data.foldl (fun a c => a * 10 + (c.toNat - 48)) 0)
  else none

/-- The failure taxonomy of the remote executor: connection, remote
command, and timeout failures, each carrying its message. -/
inductive RemoteError where
  | connection (msg : String)
  | remoteCommand (msg : String)
  | timeout (msg : String)
deriving DecidableEq, Repr

/-- JS `String(err)` on a backend failure: the carried message. -/
def errString : RemoteError → String
  | .connection m => m
  | .remoteCommand m => m
  | .timeout m => m

/-- Errors surfaced by one harness step: a backend failure passed
through unretried, a `withRetry` exhaustion (the `new Error` built after
the last attempt), a reconciliation failure, or another plain harness
`throw`. -/
inductive StepError where
  | remote (e : RemoteError)
  | retryFailed (label : String) (attempts : Nat) (last : String)
  | reconcile (msg : String)
  | harness (msg : String)
deriving DecidableEq, Repr

/-- The `err.message` string a `runStep` failure records. -/
def stepErrorMessage : StepError → String
  | .remote e => errString e
  | .retryFailed label attempts last =>
      label ++ " failed after " ++ toString attempts ++ " attempts: " ++ last
  | .reconcile m => m
  | .harness m => m

/-- One visible action of a retried operation: an invocation of the
wrapped function (by attempt index) or a backoff sleep. -/
inductive RetryAct where
  | attempt (i : Nat)
  | pause (ms : Nat)
deriving DecidableEq, Repr

/-- The loop body of `withRetry`: at attempt `i` with `remaining`
iterations of the JS `for` loop left (`remaining = attempts - i`,
invariant of the recursion) and the stringified last error so far.
Mirrors the JS loop: try `fn`, return on success, remember the error,
sleep `delayMs` unless this was the last attempt (`i < attempts - 1`,
i.e. `remaining > 1`), and after the loop throw an error built from the
label, the attempt count and `String(lastError)`. -/
def withRetryGo (label : String) (attempts delayMs : Nat)
    (fn : Nat → Except RemoteError α) :
    Nat → Nat → Option String → Except StepError α × List RetryAct
  | _, 0, last =>
    (.error (.retryFailed label attempts
        (match last with | some s => s | none => "undefined")), [])
  | i, remaining + 1, _ =>
    match fn i with
    | .ok v => (.ok v, [.attempt i])
    | .error e =>
      let rest := withRetryGo label attempts delayMs fn (i + 1) remaining (some (errString e))
      if remaining > 0 then
        (rest.1, .attempt i :: .pause delayMs :: rest.2)
      else
        (rest.1, .attempt i :: rest.2)

/-- `withRetry(label, attempts, delayMs, fn)` from the harness, with the
wrapped function given as an oracle of its outcome per attempt index.
Returns the JS result together with the sequence of attempts and sleeps
performed. -/
def withRetry (label : String) (attempts delayMs : Nat)
    (fn : Nat → Except RemoteError α) : Except StepError α × List RetryAct :=
  withRetryGo label attempts delayMs fn 0 attempts none

/-- `VmStopMode`: soft or hard stop. -/
inductive VmStopMode where
  | soft
  | hard
deriving DecidableEq, Repr

/-- The string interpolated into the stop retry label. -/
def modeText : VmStopMode → String
  | .soft => "soft"
  | .hard => "hard"

/-- The retry configuration of `tryStartVm`: label "vmware_start_vm",
2 attempts, 800 ms backoff. -/
def tryStartVmRetry (exec : Nat → Except RemoteError Unit) :
    Except StepError Unit × List RetryAct :=
  withRetry "vmware_start_vm" 2 800 exec

/-- The retry configuration of `tryStopVm`: label
"vmware_stop_vm(mode)", 2 attempts, 800 ms backoff. -/
def tryStopVmRetry (mode : VmStopMode) (exec : Nat → Except RemoteError Unit) :
    Except StepError Unit × List RetryAct :=
  withRetry ("vmware_stop_vm(" ++ modeText mode ++ ")") 2 800 exec

/-- `vmIsRunning`: whether the list returned by `vmwareListRunning`
contains the target path, compared case-insensitively (the
`localeCompare` accent-sensitivity disjunct and the `toLowerCase`
disjunct are both this comparison). -/
def vmIsRunning (list : List String) (vmxPath : String) : Bool :=
  list.any (fun p => jsToLower p == jsToLower vmxPath)

/-- The `SshConfig` value built by the harness. -/
structure SshConfig where
  host : String
  user : String
  port : Nat
deriving DecidableEq, Repr

/-- The environment variables the harness reads.  `scanRoots` is the
result of `envJson` on `VITE_E2E_SCAN_ROOTS` (JSON parsing itself is not
modelled: the field is the parsed array when parsing succeeded). -/
structure Env where
  e2e : Option String
  host : Option String
  user : Option String
  port : Option String
  vmxPath : Option String
  vmPassword : Option String
  scanRoots : Option (List String)
  keyText : Option String
  runHardStop : Option String
  timeoutMs : Option String
deriving Repr

/-- `buildSshFromEnv`: requires host and user; the port falls back to 22
when missing, non-numeric, or not positive. -/
def buildSshFromEnv (env : Env) : Option SshConfig :=
  match envText env.host, envText env.user with
  | some h, some u =>
    let port : Nat :=
      match envText env.port with
      | some t =>
        match jsToNat? t with
        | some n => if 0 < n then n else 22
        | none => 22
      | none => 22
    some ⟨h, u, port⟩
  | _, _ => none

/-- One E2E report event.  The free-form `meta` record of the source is
not modelled; in the whole-suite composition `durationMs` is abstracted
to `0` (timing is treated separately by `runStep`). -/
structure E2EEvent where
  name : String
  ok : Bool
  durationMs : Int
  error : Option String := none
deriving DecidableEq, Repr

/-- Deterministic oracle for the Tauri backend: one reply per
invocation; the calls that can happen several times in one run are
indexed by how many calls of that kind happened before.  A timeout of
`withTimeout` firing is represented by the reply `.error (.timeout _)`.
`nowIso` stands for `new Date().toISOString()`. -/
structure Backend where
  traceClear : Except RemoteError Unit
  sshKeyStatus : Nat → Except RemoteError Bool
  sshSetPrivateKey : Except RemoteError Unit
  sshClearPrivateKey : Except RemoteError Unit
  sshExec : Except RemoteError String
  listRunning : Nat → Except RemoteError (List String)
  statusForKnown : Except RemoteError Unit
  startVm : Nat → Except RemoteError Unit
  stopVm : Nat → Except RemoteError Unit
  scanDefaultVmx : Except RemoteError (List String)
  scanVmx : Except RemoteError (List String)
  traceList : Except RemoteError Unit
  nowIso : String

/-- Running state of one suite run: the backend invocations so far (in
order), the events pushed so far, and the per-operation reply counters. -/
structure SuiteSt where
  calls : List String
  events : List E2EEvent
  keyStatusN : Nat
  listN : Nat
  startN : Nat
  stopN : Nat
deriving DecidableEq, Repr

/-- Record one backend invocation. -/
def recCall (st : SuiteSt) (name : String) : SuiteSt :=
  { st with calls := st.calls ++ [name] }

/-- Push one event (the `events.push` of the source, duration
abstracted). -/
def recEvent (st : SuiteSt) (name : String) (ok : Bool) (err : Option String) : SuiteSt :=
  { st with events := st.events ++ [⟨name, ok, 0, err⟩] }

/-- A backend failure propagates as a `StepError.remote`. -/
def liftRemote : Except RemoteError α → Except StepError α
  | .ok v => .ok v
  | .error e => .error (.remote e)

def callTraceClear (b : Backend) (st : SuiteSt) : Except StepError Unit × SuiteSt :=
  (liftRemote b.traceClear, recCall st "trace_clear")

def callKeyStatus (b : Backend) (st : SuiteSt) : Except StepError Bool × SuiteSt :=
  (liftRemote (b.sshKeyStatus st.keyStatusN),
   { recCall st "ssh_key_status" with keyStatusN := st.keyStatusN + 1 })

def callSetKey (b : Backend) (st : SuiteSt) : Except StepError Unit × SuiteSt :=
  (liftRemote b.sshSetPrivateKey, recCall st "ssh_set_private_key")

def callSshExec (b : Backend) (st : SuiteSt) : Except StepError String × SuiteSt :=
  (liftRemote b.sshExec, recCall st "ssh_exec")

def callListRunning (b : Backend) (st : SuiteSt) : Except StepError (List String) × SuiteSt :=
  (liftRemote (b.listRunning st.listN),
   { recCall st "vmware_list_running" with listN := st.listN + 1 })

def callStatusForKnown (b : Backend) (st : SuiteSt) : Except StepError Unit × SuiteSt :=
  (liftRemote b.statusForKnown, recCall st "vmware_status_for_known")

def callScanDefault (b : Backend) (st : SuiteSt) : Except StepError (List String) × SuiteSt :=
  (liftRemote b.scanDefaultVmx, recCall st "vmware_scan_default_vmx")

def callScanVmx (b : Backend) (st : SuiteSt) : Except StepError (List String) × SuiteSt :=
  (liftRemote b.scanVmx, recCall st "vmware_scan_vmx")

def callTraceList (b : Backend) (st : SuiteSt) : Except StepError Unit × SuiteSt :=
  (liftRemote b.traceList, recCall st "trace_list")

/-- Sequencing of awaited fallible steps: a failure short-circuits (the
JS exception propagates to the enclosing try). -/
def andThen (x : Except StepError α × SuiteSt)
    (f : α → SuiteSt → Except StepError β × SuiteSt) : Except StepError β × SuiteSt :=
  match x with
  | (.ok a, st) => f a st
  | (.error e, st) => (.error e, st)

/-- `runStep` as used inside the suite composition: run the body, then
push exactly one event — ok on resolution, not-ok with the error message
on a throw — and re-propagate the result. -/
def stepWrap (name : String) (st : SuiteSt)
    (body : SuiteSt → Except StepError α × SuiteSt) : Except StepError α × SuiteSt :=
  match body st with
  | (.ok v, st') => (.ok v, recEvent st' name true none)
  | (.error e, st') => (.error e, recEvent st' name false (some (stepErrorMessage e)))

/-- Number of invocations of the wrapped function in a retry trace. -/
def countAttempts : List RetryAct → Nat
  | [] => 0
  | .attempt _ :: rest => countAttempts rest + 1
  | .pause _ :: rest => countAttempts rest

/-- `tryStartVm` inside the suite: run the retry loop against the
backend's start replies and record one `vmware_start_vm` invocation per
attempt actually made. -/
def suiteTryStart (b : Backend) (st : SuiteSt) : Except StepError Unit × SuiteSt :=
  let r := tryStartVmRetry (fun i => b.startVm (st.startN + i))
  let k := countAttempts r.2
  (r.1, { st with startN := st.startN + k,
                  calls := st.calls ++ List.replicate k "vmware_start_vm" })

/-- `tryStopVm` inside the suite, likewise. -/
def suiteTryStop (mode : VmStopMode) (b : Backend) (st : SuiteSt) :
    Except StepError Unit × SuiteSt :=
  let r := tryStopVmRetry mode (fun i => b.stopVm (st.stopN + i))
  let k := countAttempts r.2
  (r.1, { st with stopN := st.stopN + k,
                  calls := st.calls ++ List.replicate k "vmware_stop_vm" })

/-- The reconciliation failure message of the start step. -/
def startReconMsg : String := "vmware_start_vm returned success but VM is not running."

/-- The reconciliation failure message of a stop step. -/
def stopReconMsg (mode : VmStopMode) : String :=
  "vmware_stop_vm(" ++ modeText mode ++ ") returned success but VM is still running."

/-- Body of the `vmware_start_vm` step: retried start, then reconcile by
polling `listRunning`; throw the reconciliation error when the target
path is not present. -/
def startStepSuite (b : Backend) (vmx : String) (st : SuiteSt) :
    Except StepError Unit × SuiteSt :=
  andThen (suiteTryStart b st) fun _ st =>
  andThen (callListRunning b st) fun list st =>
  if vmIsRunning list vmx then (.ok (), st)
  else (.error (.reconcile startReconMsg), st)

/-- Body of a `vmware_stop_*` step: retried stop, `sleep(400)` (no
observable backend action), then reconcile by polling `listRunning`;
throw the reconciliation error when the path is still present. -/
def stopStepSuite (mode : VmStopMode) (b : Backend) (vmx : String) (st : SuiteSt) :
    Except StepError Unit × SuiteSt :=
  andThen (suiteTryStop mode b st) fun _ st =>
  andThen (callListRunning b st) fun list st =>
  if vmIsRunning list vmx then (.error (.reconcile (stopReconMsg mode)), st)
  else (.ok (), st)

/-- Body of the `vmware_stop_soft_preflight` step: check whether the VM
is running and soft-stop it only in that case. -/
def preflightStep (b : Backend) (vmx : String) (st : SuiteSt) :
    Except StepError Unit × SuiteSt :=
  andThen (callListRunning b st) fun list st =>
  if vmIsRunning list vmx then suiteTryStop .soft b st else (.ok (), st)

/-- The key bootstrap of the try-block: when the key is absent, either
throw for missing key text, or set the key and re-check its status. -/
def keyBootstrap (keyText : Option String) (b : Backend) (keyPresent : Bool)
    (st : SuiteSt) : Except StepError Unit × SuiteSt :=
  if keyPresent then (.ok (), st)
  else
    match keyText with
    | none =>
      (.error (.harness "SSH key missing; set VITE_E2E_SSH_KEY_TEXT or configure key in app first."), st)
    | some _ =>
      andThen (stepWrap "ssh_set_private_key" st (callSetKey b)) fun _ st =>
      andThen (stepWrap "ssh_key_status_after_set" st (callKeyStatus b)) fun presentAfter st =>
      if presentAfter then (.ok (), st)
      else (.error (.harness "ssh_set_private_key reported success, but ssh_key_status is still false."), st)

/-- The vm start/stop phase of the try-block: preflight, start, soft
stop, and — behind its flag — a start and a hard stop; or a skip event
when no vmx path is configured. -/
def vmPhase (vmxPath : Option String) (runHardStop : Bool) (b : Backend)
    (st : SuiteSt) : Except StepError Unit × SuiteSt :=
  match vmxPath with
  | some vmx =>
    andThen (stepWrap "vmware_stop_soft_preflight" st (preflightStep b vmx)) fun _ st =>
    andThen (stepWrap "vmware_start_vm" st (startStepSuite b vmx)) fun _ st =>
    andThen (stepWrap "vmware_stop_soft" st (stopStepSuite .soft b vmx)) fun _ st =>
    if runHardStop then
      andThen (stepWrap "vmware_start_vm_for_hard_stop" st (suiteTryStart b)) fun _ st =>
      stepWrap "vmware_stop_hard" st (stopStepSuite .hard b vmx)
    else (.ok (), st)
  | none => (.ok (), recEvent st "vmware_start_stop_skipped" true none)

/-- The custom-roots scan of the try-block: run only when a nonempty
array was configured, otherwise push the skip event. -/
def scanPhase (scanRoots : Option (List String)) (b : Backend) (st : SuiteSt) :
    Except StepError Unit × SuiteSt :=
  match scanRoots with
  | some roots =>
    if roots.length > 0 then
      andThen (stepWrap "vmware_scan_vmx" st (callScanVmx b)) fun _ st => (.ok (), st)
    else (.ok (), recEvent st "vmware_scan_vmx_skipped" true none)
  | none => (.ok (), recEvent st "vmware_scan_vmx_skipped" true none)

/-- The try-block after the initial `trace_clear` step, in source
order. -/
def suiteTail (env : Env) (b : Backend) (st : SuiteSt) : Except StepError Unit × SuiteSt :=
  andThen (stepWrap "ssh_key_status" st (callKeyStatus b)) fun keyPresent st =>
  andThen (keyBootstrap (envText env.keyText) b keyPresent st) fun _ st =>
  andThen (stepWrap "ssh_exec_hostname" st (callSshExec b)) fun _ st =>
  andThen (stepWrap "vmware_list_running" st (callListRunning b)) fun _ st =>
  andThen (stepWrap "vmware_status_for_known" st (callStatusForKnown b)) fun _ st =>
  andThen (vmPhase (envText env.vmxPath) (envFlag env.runHardStop) b st) fun _ st =>
  andThen (stepWrap "vmware_scan_default_vmx" st (callScanDefault b)) fun _ st =>
  andThen (scanPhase env.scanRoots b st) fun _ st =>
  andThen (stepWrap "trace_list" st (callTraceList b)) fun _ st =>
  (.ok (), st)

/-- The try-block of `runE2EInvokeSuite`, from `trace_clear` to
`trace_list`, chaining the steps in source order with the source's
conditionals (key bootstrap when the key is absent, vm start/stop only
when a vmx path is configured, hard stop behind its flag, scan over
roots only when a nonempty array was configured, skip events
otherwise). -/
def suiteBody (env : Env) (b : Backend) (st : SuiteSt) : Except StepError Unit × SuiteSt :=
  andThen (stepWrap "trace_clear" st (callTraceClear b)) fun _ st =>
  suiteTail env b st

/-- What one run of the suite returns, together with the ordered list of
backend invocations it performed. -/
structure SuiteResult where
  ok : Bool
  events : List E2EEvent
  calls : List String
deriving DecidableEq, Repr

/-- The event pushed when `buildSshFromEnv` returns null. -/
def envCheckFailEvent : E2EEvent :=
  ⟨"env_check", false, 0,
   some "Missing VITE_E2E_SSH_HOST or VITE_E2E_SSH_USER (and optionally VITE_E2E_SSH_PORT)."⟩

/-- `runE2EInvokeSuite`: env check first (returning before any backend
call when host or user is missing), then the try-block; on a throw the
catch performs a best-effort `trace_list`, and the finally clause clears
the private key iff inline key text was configured. -/
def runE2EInvokeSuite (env : Env) (b : Backend) : SuiteResult :=
  match buildSshFromEnv env with
  | none => ⟨false, [envCheckFailEvent], []⟩
  | some _ =>
    let st0 : SuiteSt := ⟨[], [], 0, 0, 0, 0⟩
    let r := suiteBody env b st0
    let st :=
      match r.1 with
      | .ok _ => r.2
      | .error _ => recCall r.2 "trace_list"
    let st :=
      if (envText env.keyText).isSome then recCall st "ssh_clear_private_key" else st
    ⟨(match r.1 with | .ok _ => true | .error _ => false), st.events, st.calls⟩

/-- JSON string literal; escaping of the content is not modelled. -/
def jsonString (s : String) : String := "\"" ++ s ++ "\""

/-- `JSON.stringify` of one event, `undefined` fields omitted. -/
def renderEvent (e : E2EEvent) : String :=
  "\x7b\"name\":" ++ jsonString e.name
    ++ ",\"ok\":" ++ (if e.ok then "true" else "false")
    ++ ",\"durationMs\":" ++ toString e.durationMs
    ++ (match e.error with | some m => ",\"error\":" ++ jsonString m | none => "")
    ++ "\x7d"

/-- `JSON.stringify` of the report payload `(ok, at, events)`. -/
def renderPayload (now : String) (r : SuiteResult) : String :=
  "\x7b\"ok\":" ++ (if r.ok then "true" else "false")
    ++ ",\"at\":" ++ jsonString now
    ++ ",\"events\":[" ++ String.intercalate "," (r.events.map renderEvent) ++ "]\x7d"

/-- Externally visible outcome of `maybeRunE2EInvokeSuite`: the value of
the module-level running guard afterwards, the console lines printed,
and the `e2e_exit` invocations (by exit code, in order). -/
structure MaybeOutcome where
  guardAfter : Bool
  lines : List String
  exitCalls : List Nat
deriving DecidableEq, Repr

/-- `maybeRunE2EInvokeSuite`: gated on `envFlag(VITE_E2E)` and on the
global running guard; when it runs, it sets the guard, runs the suite,
prints the single marker line and calls `e2e_exit` with 0 on pass and 1
on fail. -/
def maybeRunE2EInvokeSuite (env : Env) (b : Backend) (guard : Bool) : MaybeOutcome :=
  if envFlag env.e2e = false then ⟨guard, [], []⟩
  else if guard then ⟨true, [], []⟩
  else
    let report := runE2EInvokeSuite env b
    ⟨true,
     ["[e2e] " ++ (if report.ok then "PASS" else "FAIL") ++ " "
        ++ renderPayload b.nowIso report],
     [if report.ok then 0 else 1]⟩

/-- `runStep` of the harness with its timing made explicit: `started`
and `ended` are the two `performance.now()` readings (already-rounded
instants), `res` the outcome of the wrapped function.  Exactly one event
is pushed, ok on resolution and not-ok with the error message on a
throw, and the outcome is re-propagated. -/
def runStep (events : List E2EEvent) (name : String) (started ended : Int)
    (res : Except StepError α) : Except StepError α × List E2EEvent :=
  match res with
  | .ok v => (.ok v, events ++ [⟨name, true, ended - started, none⟩])
  | .error e =>
    (.error e, events ++ [⟨name, false, ended - started, some (stepErrorMessage e)⟩])

/-- One operation-log entry of the UI ledger (`LogEvent` of
`src/app/log.ts`; the `id`, `at`, `summary` and `meta` fields carry no
claim content and are not modelled). -/
structure LogEvent where
  action : String
  status : String
  durationMs : Int
  error : Option String := none
  requestId : String
deriving DecidableEq, Repr

/-- `pushLog` of `App.tsx`: prepend the entry and cap the ledger at 200
entries. -/
def pushLog (log : List LogEvent) (e : LogEvent) : List LogEvent :=
  (e :: log).take 200

/-- `withLog` of `App.tsx` with its timing made explicit: on resolution
push one success entry, on a throw push one error entry carrying
`String(err)`, and re-propagate the outcome. -/
def withLog (log : List LogEvent) (action : String) (requestId : String)
    (started ended : Int) (res : Except String α) : Except String α × List LogEvent :=
  match res with
  | .ok v => (.ok v, pushLog log ⟨action, "success", ended - started, none, requestId⟩)
  | .error e => (.error e, pushLog log ⟨action, "error", ended - started, some e, requestId⟩)

/-- Concrete fixtures used by witnesses: an all-successful backend with
an always-present key and an empty running list. -/
def bOkMin : Backend :=
  { traceClear := .ok ()
    sshKeyStatus := fun _ => .ok true
    sshSetPrivateKey := .ok ()
    sshClearPrivateKey := .ok ()
    sshExec := .ok "HOSTNAME"
    listRunning := fun _ => .ok []
    statusForKnown := .ok ()
    startVm := fun _ => .ok ()
    stopVm := fun _ => .ok ()
    scanDefaultVmx := .ok []
    scanVmx := .ok []
    traceList := .ok ()
    nowIso := "2026-01-01T00:00:00.000Z" }

/-- Minimal passing environment: host and user only. -/
def envMin : Env :=
  { e2e := some "1", host := some "h", user := some "u", port := none,
    vmxPath := none, vmPassword := none, scanRoots := none,
    keyText := none, runHardStop := none, timeoutMs := none }

/-- Fully configured environment: vmx path, password, scan roots, inline
key text, hard stop opted in. -/
def envFull : Env :=
  { e2e := some "1", host := some "h", user := some "u", port := some "22",
    vmxPath := some "C:\\VMs\\T\\T.vmx", vmPassword := some "pw",
    scanRoots := some ["C:\\VMs"], keyText := some "KEY",
    runHardStop := some "1", timeoutMs := some "120000" }

/-- Backend for the fully configured run: key absent until set, the VM
not running at preflight, running after the start, gone after each
stop. -/
def bFull : Backend :=
  { bOkMin with
    sshKeyStatus := fun n => .ok (n > 0)
    listRunning := fun n => if n = 2 then .ok ["c:\\vms\\t\\t.vmx"] else .ok [] }

/-- Fresh suite state. -/
def st0 : SuiteSt := ⟨[], [], 0, 0, 0, 0⟩

/-- Unfolding of one loop iteration of `withRetryGo`. -/
theorem withRetryGo_succ (label : String) (a d : Nat) (fn : Nat → Except RemoteError α)
    (i r : Nat) (last : Option String) :
    withRetryGo label a d fn i (r + 1) last =
      match fn i with
      | .ok v => (.ok v, [.attempt i])
      | .error e =>
        let rest := withRetryGo label a d fn (i + 1) r (some (errString e))
        if r > 0 then (rest.1, .attempt i :: .pause d :: rest.2)
        else (rest.1, .attempt i :: rest.2) := rfl

/-- First attempt succeeds: one invocation, no sleep, value returned. -/
theorem withRetry_two_ok0 (label : String) (fn : Nat → Except RemoteError α)
    (v : α) (h : fn 0 = .ok v) :
    withRetry label 2 800 fn = (.ok v, [.attempt 0]) := by
  show withRetryGo label 2 800 fn 0 (1 + 1) none = _
  rw [withRetryGo_succ, h]

/-- First attempt fails, second succeeds: two invocations separated by
one 800 ms sleep, the second value returned. -/
theorem withRetry_two_ok1 (label : String) (fn : Nat → Except RemoteError α)
    (e : RemoteError) (v : α) (h0 : fn 0 = .error e) (h1 : fn 1 = .ok v) :
    withRetry label 2 800 fn = (.ok v, [.attempt 0, .pause 800, .attempt 1]) := by
  show withRetryGo label 2 800 fn 0 (1 + 1) none = _
  rw [withRetryGo_succ, h0]
  show (if 1 > 0 then _ else _) = _
  rw [if_pos (by omega : 1 > 0)]
  show (_, .attempt 0 :: .pause 800 :: (withRetryGo label 2 800 fn (0 + 1) (0 + 1) _).2) = _
  rw [withRetryGo_succ]
  rw [show (0 + 1 : Nat) = 1 from rfl, h1]

/-- Both attempts fail: two invocations, one sleep in between, none
after, and the thrown error carries the label, the attempt count and
the stringified last error. -/
theorem withRetry_two_err (label : String) (fn : Nat → Except RemoteError α)
    (e0 e1 : RemoteError) (h0 : fn 0 = .error e0) (h1 : fn 1 = .error e1) :
    withRetry label 2 800 fn =
      (.error (.retryFailed label 2 (errString e1)),
       [.attempt 0, .pause 800, .attempt 1]) := by
  show withRetryGo label 2 800 fn 0 (1 + 1) none = _
  rw [withRetryGo_succ, h0]
  show (if 1 > 0 then _ else _) = _
  rw [if_pos (by omega : 1 > 0)]
  rw [withRetryGo_succ]
  rw [show (0 + 1 : Nat) = 1 from rfl, h1]
  rfl

example : withRetry "x" 2 800
      (fun i => if i = 0 then .error (.timeout "t") else (.ok 7 : Except RemoteError Nat)) =
    (.ok 7, [.attempt 0, .pause 800, .attempt 1]) := rfl

/-- C1: every start and every stop operation executes the remote command
with up to 2 attempts and a fixed 800 ms backoff between consecutive
attempts: the command is invoked a second time only if the first
invocation fails, no third invocation ever occurs, the delay is
inserted only between two attempts and never after the last, and the
value of the first successful invocation is returned unchanged. -/
theorem start_stop_retry_policy (label : String) (mode : VmStopMode)
    (fn : Nat → Except RemoteError α) (exec : Nat → Except RemoteError Unit) :
    tryStartVmRetry exec = withRetry "vmware_start_vm" 2 800 exec
  ∧ tryStopVmRetry mode exec =
      withRetry ("vmware_stop_vm(" ++ modeText mode ++ ")") 2 800 exec
  ∧ (∀ v, fn 0 = .ok v → withRetry label 2 800 fn = (.ok v, [.attempt 0]))
  ∧ (∀ e v, fn 0 = .error e → fn 1 = .ok v →
      withRetry label 2 800 fn = (.ok v, [.attempt 0, .pause 800, .attempt 1]))
  ∧ (∀ e0 e1, fn 0 = .error e0 → fn 1 = .error e1 →
      withRetry label 2 800 fn =
        (.error (.retryFailed label 2 (errString e1)),
         [.attempt 0, .pause 800, .attempt 1])) :=
  ⟨rfl, rfl,
   fun v h => withRetry_two_ok0 label fn v h,
   fun e v h0 h1 => withRetry_two_ok1 label fn e v h0 h1,
   fun e0 e1 h0 h1 => withRetry_two_err label fn e0 e1 h0 h1⟩

/-- Concrete retried function: times out once, then succeeds. -/
def fnRetryW : Nat → Except RemoteError Nat :=
  fun i => if i = 0 then .error (.timeout "first try timed out") else .ok 42

/-- Concrete exec oracle that always succeeds. -/
def execOkW : Nat → Except RemoteError Unit := fun _ => .ok ()

/-- Witness for C1: a first timeout followed by a success yields exactly
two invocations with one 800 ms pause in between and the second value. -/
theorem start_stop_retry_policy_witness :
    withRetry "vmware_start_vm" 2 800 fnRetryW =
      (.ok 42, [.attempt 0, .pause 800, .attempt 1]) :=
  (start_stop_retry_policy "vmware_start_vm" .soft fnRetryW execOkW).2.2.2.1
    (.timeout "first try timed out") 42 rfl rfl

/-- C9: when all retry attempts of a start or stop operation fail, the
error surfaced to the caller embeds the stringified error of the final
failed attempt (not the first), together with the operation label and
the attempt count. -/
theorem retry_surfaces_last_error (mode : VmStopMode)
    (exec : Nat → Except RemoteError Unit) (e0 e1 : RemoteError)
    (h0 : exec 0 = .error e0) (h1 : exec 1 = .error e1) :
    (tryStartVmRetry exec).1 =
      .error (.retryFailed "vmware_start_vm" 2 (errString e1))
  ∧ (tryStopVmRetry mode exec).1 =
      .error (.retryFailed ("vmware_stop_vm(" ++ modeText mode ++ ")") 2 (errString e1))
  ∧ stepErrorMessage (.retryFailed "vmware_start_vm" 2 (errString e1)) =
      "vmware_start_vm failed after 2 attempts: " ++ errString e1 := by
  refine ⟨?_, ?_, rfl⟩
  · show (withRetry "vmware_start_vm" 2 800 exec).1 = _
    rw [withRetry_two_err "vmware_start_vm" exec e0 e1 h0 h1]
  · show (withRetry ("vmware_stop_vm(" ++ modeText mode ++ ")") 2 800 exec).1 = _
    rw [withRetry_two_err ("vmware_stop_vm(" ++ modeText mode ++ ")") exec e0 e1 h0 h1]

/-- Concrete exec oracle with two distinct failures. -/
def execErrW : Nat → Except RemoteError Unit :=
  fun i => if i = 0 then .error (.connection "first error")
           else .error (.remoteCommand "second error")

/-- Witness for C9: both attempts fail with distinct messages and the
surfaced error carries the second one. -/
theorem retry_surfaces_last_error_witness :
    (tryStartVmRetry execErrW).1 =
      .error (.retryFailed "vmware_start_vm" 2 "second error") :=
  (retry_surfaces_last_error .soft execErrW (.connection "first error")
    (.remoteCommand "second error") rfl rfl).1

example : (withRetry "x" 2 800
      (fun i => (.error (.timeout (toString i)) : Except RemoteError Nat))).1 =
    .error (.retryFailed "x" 2 "1") := rfl

/-- The retried start phase does not touch the listRunning counter. -/
theorem suiteTryStart_listN (b : Backend) (st : SuiteSt) :
    (suiteTryStart b st).2.listN = st.listN := rfl

/-- The retried stop phase does not touch the listRunning counter. -/
theorem suiteTryStop_listN (mode : VmStopMode) (b : Backend) (st : SuiteSt) :
    (suiteTryStop mode b st).2.listN = st.listN := rfl

/-- C2: for every start operation whose execute step reports success,
the service polls `listRunning` and the step fails with the
reconciliation error whenever the target path is not present in the
returned list; it succeeds only if the path is present after the poll,
and presence is decided by case-insensitive comparison. -/
theorem start_reconciliation (b : Backend) (st : SuiteSt) (vmx : String)
    (l : List String)
    (hExec : (suiteTryStart b st).1 = .ok ())
    (hList : b.listRunning st.listN = .ok l) :
    ((startStepSuite b vmx st).1 = .ok () ↔ vmIsRunning l vmx = true)
  ∧ (vmIsRunning l vmx = false →
      (startStepSuite b vmx st).1 = .error (.reconcile startReconMsg))
  ∧ vmIsRunning l vmx = (l.any fun p => jsToLower p == jsToLower vmx) := by
  rcases hP : suiteTryStart b st with ⟨r, st'⟩
  rw [hP] at hExec
  simp only at hExec
  subst hExec
  have hN : st'.listN = st.listN := by
    rw [← suiteTryStart_listN b st, hP]
  refine ⟨?_, ?_, rfl⟩ <;>
    simp only [startStepSuite, andThen, hP, callListRunning, hN, hList,
      liftRemote] <;>
    cases h : vmIsRunning l vmx <;> simp [h]

/-- Witness backend for C2: the target VM reported running (in different
case) after the start. -/
def bStartedW : Backend :=
  { bOkMin with listRunning := fun _ => .ok ["c:\\vms\\t\\t.vmx"] }

/-- Witness for C2: with an empty running list the start step fails with
the reconciliation error; with the path present in different case it
succeeds. -/
theorem start_reconciliation_witness :
    (startStepSuite bOkMin "C:\\VMs\\T\\T.vmx" st0).1 =
      .error (.reconcile startReconMsg)
  ∧ (startStepSuite bStartedW "C:\\VMs\\T\\T.vmx" st0).1 = .ok () :=
  ⟨(start_reconciliation bOkMin st0 "C:\\VMs\\T\\T.vmx" [] rfl rfl).2.1 rfl,
   (start_reconciliation bStartedW st0 "C:\\VMs\\T\\T.vmx" ["c:\\vms\\t\\t.vmx"]
      rfl rfl).1.mpr (by decide)⟩

/-- C3: for every stop operation (soft or hard) whose execute step
reports success, the service polls `listRunning` and fails with the
reconciliation error — not a bare success — whenever the target path is
still present; it succeeds only if the path is absent after the poll. -/
theorem stop_reconciliation (mode : VmStopMode) (b : Backend) (st : SuiteSt)
    (vmx : String) (l : List String)
    (hExec : (suiteTryStop mode b st).1 = .ok ())
    (hList : b.listRunning st.listN = .ok l) :
    ((stopStepSuite mode b vmx st).1 = .ok () ↔ vmIsRunning l vmx = false)
  ∧ (vmIsRunning l vmx = true →
      (stopStepSuite mode b vmx st).1 = .error (.reconcile (stopReconMsg mode))) := by
  rcases hP : suiteTryStop mode b st with ⟨r, st'⟩
  rw [hP] at hExec
  simp only at hExec
  subst hExec
  have hN : st'.listN = st.listN := by
    rw [← suiteTryStop_listN mode b st, hP]
  constructor <;>
    simp only [stopStepSuite, andThen, hP, callListRunning, hN, hList,
      liftRemote] <;>
    cases h : vmIsRunning l vmx <;> simp [h]

/-- Witness for C3: with the path still reported running (in different
case) the soft and hard stop steps fail with the reconciliation error;
with an empty running list the stop step succeeds. -/
theorem stop_reconciliation_witness :
    (stopStepSuite .soft bStartedW "C:\\VMs\\T\\T.vmx" st0).1 =
      .error (.reconcile (stopReconMsg .soft))
  ∧ (stopStepSuite .hard bStartedW "C:\\VMs\\T\\T.vmx" st0).1 =
      .error (.reconcile (stopReconMsg .hard))
  ∧ (stopStepSuite .soft bOkMin "C:\\VMs\\T\\T.vmx" st0).1 = .ok () :=
  ⟨(stop_reconciliation .soft bStartedW st0 "C:\\VMs\\T\\T.vmx"
      ["c:\\vms\\t\\t.vmx"] rfl rfl).2 (by decide),
   (stop_reconciliation .hard bStartedW st0 "C:\\VMs\\T\\T.vmx"
      ["c:\\vms\\t\\t.vmx"] rfl rfl).2 (by decide),
   (stop_reconciliation .soft bOkMin st0 "C:\\VMs\\T\\T.vmx" [] rfl rfl).1.mpr rfl⟩

/-- C4: retries are applied only to failures of the execute step —
which, by the type of the backend oracle, are exactly the
ConnectionError/RemoteCommandError/TimeoutError taxonomy — so a second
remote execute invocation occurs precisely when the first failed; a
failure of the reconciliation step (the poll failing, or the poll
contradicting the claimed outcome) is surfaced immediately as the
operation's final failure, and after the reconciliation poll no further
remote execute attempt occurs within the operation: the poll is the
last recorded backend call. -/
theorem reconciliation_not_retried (mode : VmStopMode) (b : Backend)
    (st : SuiteSt) (vmx : String) (l : List String) (er : RemoteError) :
    (b.startVm st.startN = .ok () →
      (suiteTryStart b st).2.calls = st.calls ++ ["vmware_start_vm"])
  ∧ (∀ e, b.startVm st.startN = .error e →
      (suiteTryStart b st).2.calls =
        st.calls ++ ["vmware_start_vm", "vmware_start_vm"])
  ∧ (b.stopVm st.stopN = .ok () →
      (suiteTryStop mode b st).2.calls = st.calls ++ ["vmware_stop_vm"])
  ∧ ((suiteTryStart b st).1 = .ok () → b.listRunning st.listN = .ok l →
      vmIsRunning l vmx = false →
      (startStepSuite b vmx st).1 = .error (.reconcile startReconMsg)
      ∧ (startStepSuite b vmx st).2.calls =
          (suiteTryStart b st).2.calls ++ ["vmware_list_running"])
  ∧ ((suiteTryStart b st).1 = .ok () → b.listRunning st.listN = .error er →
      (startStepSuite b vmx st).1 = .error (.remote er)
      ∧ (startStepSuite b vmx st).2.calls =
          (suiteTryStart b st).2.calls ++ ["vmware_list_running"])
  ∧ ((suiteTryStop mode b st).1 = .ok () → b.listRunning st.listN = .ok l →
      vmIsRunning l vmx = true →
      (stopStepSuite mode b vmx st).1 = .error (.reconcile (stopReconMsg mode))
      ∧ (stopStepSuite mode b vmx st).2.calls =
          (suiteTryStop mode b st).2.calls ++ ["vmware_list_running"]) := by
  refine ⟨?_, ?_, ?_, ?_, ?_, ?_⟩
  · intro hOk
    have h0 : (fun i => b.startVm (st.startN + i)) 0 = .ok () := by simpa using hOk
    have hr := withRetry_two_ok0 "vmware_start_vm"
      (fun i => b.startVm (st.startN + i)) () h0
    simp [suiteTryStart, tryStartVmRetry, hr, countAttempts]
  · intro e hErr
    have h0 : (fun i => b.startVm (st.startN + i)) 0 = .error e := by simpa using hErr
    cases h1 : b.startVm (st.startN + 1) with
    | ok v =>
      have hr := withRetry_two_ok1 "vmware_start_vm"
        (fun i => b.startVm (st.startN + i)) e v h0 h1
      simp [suiteTryStart, tryStartVmRetry, hr, countAttempts]
    | error e1 =>
      have hr := withRetry_two_err "vmware_start_vm"
        (fun i => b.startVm (st.startN + i)) e e1 h0 h1
      simp [suiteTryStart, tryStartVmRetry, hr, countAttempts]
  · intro hOk
    have h0 : (fun i => b.stopVm (st.stopN + i)) 0 = .ok () := by simpa using hOk
    have hr := withRetry_two_ok0 ("vmware_stop_vm(" ++ modeText mode ++ ")")
      (fun i => b.stopVm (st.stopN + i)) () h0
    simp [suiteTryStop, tryStopVmRetry, hr, countAttempts]
  · intro hExec hList hAbsent
    rcases hP : suiteTryStart b st with ⟨r, st'⟩
    rw [hP] at hExec
    simp only at hExec
    subst hExec
    have hN : st'.listN = st.listN := by
      rw [← suiteTryStart_listN b st, hP]
    constructor <;>
      simp [startStepSuite, andThen, hP, callListRunning, hN, hList,
        liftRemote, hAbsent, recCall]
  · intro hExec hList
    rcases hP : suiteTryStart b st with ⟨r, st'⟩
    rw [hP] at hExec
    simp only at hExec
    subst hExec
    have hN : st'.listN = st.listN := by
      rw [← suiteTryStart_listN b st, hP]
    constructor <;>
      simp [startStepSuite, andThen, hP, callListRunning, hN, hList,
        liftRemote, recCall]
  · intro hExec hList hStill
    rcases hP : suiteTryStop mode b st with ⟨r, st'⟩
    rw [hP] at hExec
    simp only at hExec
    subst hExec
    have hN : st'.listN = st.listN := by
      rw [← suiteTryStop_listN mode b st, hP]
    constructor <;>
      simp [stopStepSuite, andThen, hP, callListRunning, hN, hList,
        liftRemote, hStill, recCall]

/-- Witness backend for C4: the first start and stop execute attempts
fail with a connection error, the second ones succeed; the running list
is always empty. -/
def bFlakyW : Backend :=
  { bOkMin with
    startVm := fun n => if n = 0 then .error (.connection "drop") else .ok ()
    stopVm := fun n => if n = 0 then .error (.connection "drop") else .ok () }

/-- Witness for C4: a failed first execute attempt is retried (two
recorded execute calls), and a reconciliation failure of the start step
is surfaced immediately with the poll as the last recorded call. -/
theorem reconciliation_not_retried_witness :
    (suiteTryStart bFlakyW st0).2.calls =
      ([] : List String) ++ ["vmware_start_vm", "vmware_start_vm"]
  ∧ (startStepSuite bOkMin "C:\\VMs\\T\\T.vmx" st0).1 =
      .error (.reconcile startReconMsg)
  ∧ (startStepSuite bOkMin "C:\\VMs\\T\\T.vmx" st0).2.calls =
      (suiteTryStart bOkMin st0).2.calls ++ ["vmware_list_running"] :=
  ⟨(reconciliation_not_retried .soft bFlakyW st0 "C:\\VMs\\T\\T.vmx" [] (.timeout "t")).2.1
      (.connection "drop") rfl,
   ((reconciliation_not_retried .soft bOkMin st0 "C:\\VMs\\T\\T.vmx" [] (.timeout "t")).2.2.2.1
      rfl rfl rfl).1,
   ((reconciliation_not_retried .soft bOkMin st0 "C:\\VMs\\T\\T.vmx" [] (.timeout "t")).2.2.2.1
      rfl rfl rfl).2⟩

/-- `pushLog` prepends the new entry and keeps at most 199 old ones. -/
theorem pushLog_eq (log : List LogEvent) (e : LogEvent) :
    pushLog log e = e :: log.take 199 := rfl

/-- C5: every operation attempt produces exactly one record before the
operation returns to its caller, whether the wrapped function resolves
or throws: a success appends one ok entry, a failure appends one
not-ok entry carrying the error message, never zero and never two; with
a monotone clock every recorded durationMs is nonnegative; and the
outcome is re-propagated unchanged.  The UI ledger helper `withLog`
likewise produces exactly one record (prepended; the ledger is capped
at 200 entries). -/
theorem one_trace_entry_per_attempt
    (events : List E2EEvent) (name : String) (started ended : Int)
    (res : Except StepError α) (log : List LogEvent) (action reqId : String)
    (res2 : Except String β) (hmono : started ≤ ended) :
    ((runStep events name started ended res).2.length = events.length + 1)
  ∧ (∀ v, res = .ok v → runStep events name started ended res =
      (.ok v, events ++ [⟨name, true, ended - started, none⟩]))
  ∧ (∀ e, res = .error e → runStep events name started ended res =
      (.error e,
       events ++ [⟨name, false, ended - started, some (stepErrorMessage e)⟩]))
  ∧ 0 ≤ ended - started
  ∧ (runStep events name started ended res).1 = res
  ∧ ((withLog log action reqId started ended res2).2.length =
      min (log.length + 1) 200)
  ∧ (∀ v, res2 = .ok v → (withLog log action reqId started ended res2).2.head? =
      some ⟨action, "success", ended - started, none, reqId⟩)
  ∧ (∀ e, res2 = .error e → (withLog log action reqId started ended res2).2.head? =
      some ⟨action, "error", ended - started, some e, reqId⟩)
  ∧ (withLog log action reqId started ended res2).1 = res2 := by
  refine ⟨?_, ?_, ?_, by omega, ?_, ?_, ?_, ?_, ?_⟩
  · cases res <;> simp [runStep]
  · intro v h; subst h; simp [runStep]
  · intro e h; subst h; simp [runStep]
  · cases res <;> simp [runStep]
  · cases res2 <;> simp [withLog, pushLog_eq, List.length_take] <;> omega
  · intro v h; subst h; simp [withLog, pushLog_eq]
  · intro e h; subst h; simp [withLog, pushLog_eq]
  · cases res2 <;> simp [withLog]

/-- Witness for C5: a concrete failing attempt appends exactly one
not-ok entry with the error message and a nonnegative duration. -/
theorem one_trace_entry_per_attempt_witness :
    runStep ([] : List E2EEvent) "vmware_start_vm" 3 10
        (.error (.reconcile startReconMsg) : Except StepError Unit) =
      (.error (.reconcile startReconMsg),
       [⟨"vmware_start_vm", false, 7, some startReconMsg⟩]) :=
  (one_trace_entry_per_attempt ([] : List E2EEvent) "vmware_start_vm" 3 10
      (.error (.reconcile startReconMsg) : Except StepError Unit)
      ([] : List LogEvent) "start_vm" "req-1" (.ok 5 : Except String Nat)
      (by decide)).2.2.1 (.reconcile startReconMsg) rfl

/-- C6: if the remote host or user environment variable is absent (or
blank), the harness fails fast before invoking any operation: the run
ends with a failed result containing the single env_check failure
event, and no backend operation — not even trace_clear — is invoked. -/
theorem env_check_fails_fast (env : Env) (b : Backend)
    (h : envText env.host = none ∨ envText env.user = none) :
    runE2EInvokeSuite env b = ⟨false, [envCheckFailEvent], []⟩ := by
  have hB : buildSshFromEnv env = none := by
    rcases h with h | h
    · simp [buildSshFromEnv, h]
    · cases hx : envText env.host <;> simp [buildSshFromEnv, h, hx]
  unfold runE2EInvokeSuite
  rw [hB]

/-- Environment with the host variable missing. -/
def envNoHost : Env := { envMin with host := none }

/-- Witness for C6: with the host unset the run returns the single
env_check failure and performs no backend call. -/
theorem env_check_fails_fast_witness :
    runE2EInvokeSuite envNoHost bOkMin = ⟨false, [envCheckFailEvent], []⟩ :=
  env_check_fails_fast envNoHost bOkMin (Or.inl rfl)

/-- A step function only appends to the recorded backend-call list. -/
def CallsExtend (f : SuiteSt → Except StepError α × SuiteSt) : Prop :=
  ∀ st, ∃ l, (f st).2.calls = st.calls ++ l

theorem extends_stepWrap (name : String)
    {body : SuiteSt → Except StepError α × SuiteSt} (h : CallsExtend body) :
    CallsExtend (fun st => stepWrap name st body) := by
  intro st
  rcases h st with ⟨l, hl⟩
  refine ⟨l, ?_⟩
  rcases hb : body st with ⟨r, st'⟩
  rw [hb] at hl
  cases r <;> simp [stepWrap, hb, recEvent] <;> exact hl

theorem extends_andThen {g : SuiteSt → Except StepError α × SuiteSt}
    {f : α → SuiteSt → Except StepError β × SuiteSt}
    (hg : CallsExtend g) (hf : ∀ a, CallsExtend (f a)) :
    CallsExtend (fun st => andThen (g st) f) := by
  intro st
  rcases hgp : g st with ⟨r, st'⟩
  rcases hg st with ⟨l1, h1⟩
  rw [hgp] at h1
  simp only at h1
  cases r with
  | error e => exact ⟨l1, by simpa [andThen, hgp] using h1⟩
  | ok a =>
    rcases hf a st' with ⟨l2, h2⟩
    refine ⟨l1 ++ l2, ?_⟩
    simp [andThen, hgp, h2, h1, List.append_assoc]

theorem extends_pure : CallsExtend (fun st => ((.ok () : Except StepError Unit), st)) :=
  fun st => ⟨[], by simp⟩

theorem extends_callTraceClear (b : Backend) : CallsExtend (callTraceClear b) :=
  fun _ => ⟨["trace_clear"], rfl⟩

theorem extends_callKeyStatus (b : Backend) : CallsExtend (callKeyStatus b) :=
  fun _ => ⟨["ssh_key_status"], rfl⟩

theorem extends_callSetKey (b : Backend) : CallsExtend (callSetKey b) :=
  fun _ => ⟨["ssh_set_private_key"], rfl⟩

theorem extends_callSshExec (b : Backend) : CallsExtend (callSshExec b) :=
  fun _ => ⟨["ssh_exec"], rfl⟩

theorem extends_callListRunning (b : Backend) : CallsExtend (callListRunning b) :=
  fun _ => ⟨["vmware_list_running"], rfl⟩

theorem extends_callStatusForKnown (b : Backend) : CallsExtend (callStatusForKnown b) :=
  fun _ => ⟨["vmware_status_for_known"], rfl⟩

theorem extends_callScanDefault (b : Backend) : CallsExtend (callScanDefault b) :=
  fun _ => ⟨["vmware_scan_default_vmx"], rfl⟩

theorem extends_callScanVmx (b : Backend) : CallsExtend (callScanVmx b) :=
  fun _ => ⟨["vmware_scan_vmx"], rfl⟩

theorem extends_callTraceList (b : Backend) : CallsExtend (callTraceList b) :=
  fun _ => ⟨["trace_list"], rfl⟩

theorem extends_suiteTryStart (b : Backend) : CallsExtend (suiteTryStart b) :=
  fun st =>
    ⟨List.replicate
        (countAttempts (tryStartVmRetry (fun i => b.startVm (st.startN + i))).2)
        "vmware_start_vm", rfl⟩

theorem extends_suiteTryStop (mode : VmStopMode) (b : Backend) :
    CallsExtend (suiteTryStop mode b) :=
  fun st =>
    ⟨List.replicate
        (countAttempts (tryStopVmRetry mode (fun i => b.stopVm (st.stopN + i))).2)
        "vmware_stop_vm", rfl⟩

theorem extends_preflightStep (b : Backend) (vmx : String) :
    CallsExtend (preflightStep b vmx) := by
  unfold preflightStep
  refine extends_andThen (extends_callListRunning b) fun list => ?_
  intro st
  by_cases h : vmIsRunning list vmx
  · simpa [h] using extends_suiteTryStop .soft b st
  · exact ⟨[], by simp [h]⟩

theorem extends_startStepSuite (b : Backend) (vmx : String) :
    CallsExtend (startStepSuite b vmx) := by
  unfold startStepSuite
  refine extends_andThen (extends_suiteTryStart b) fun _ => ?_
  refine extends_andThen (extends_callListRunning b) fun list => ?_
  intro st
  by_cases h : vmIsRunning list vmx <;> exact ⟨[], by simp [h]⟩

theorem extends_stopStepSuite (mode : VmStopMode) (b : Backend) (vmx : String) :
    CallsExtend (stopStepSuite mode b vmx) := by
  unfold stopStepSuite
  refine extends_andThen (extends_suiteTryStop mode b) fun _ => ?_
  refine extends_andThen (extends_callListRunning b) fun list => ?_
  intro st
  by_cases h : vmIsRunning list vmx <;> exact ⟨[], by simp [h]⟩

theorem extends_keyBootstrap (keyText : Option String) (b : Backend)
    (keyPresent : Bool) : CallsExtend (keyBootstrap keyText b keyPresent) := by
  unfold keyBootstrap
  cases keyPresent with
  | true => simpa using extends_pure
  | false =>
    cases keyText with
    | none => exact fun st => ⟨[], by simp⟩
    | some kt =>
      simp only [Bool.false_eq_true, if_false]
      refine extends_andThen (extends_stepWrap _ (extends_callSetKey b)) fun _ => ?_
      refine extends_andThen (extends_stepWrap _ (extends_callKeyStatus b)) fun presentAfter => ?_
      intro st
      by_cases h : presentAfter <;> exact ⟨[], by simp [h]⟩

theorem extends_vmPhase (vmxPath : Option String) (runHardStop : Bool)
    (b : Backend) : CallsExtend (vmPhase vmxPath runHardStop b) := by
  unfold vmPhase
  cases vmxPath with
  | none => exact fun st => ⟨[], by simp [recEvent]⟩
  | some vmx =>
    refine extends_andThen (extends_stepWrap _ (extends_preflightStep b vmx)) fun _ => ?_
    refine extends_andThen (extends_stepWrap _ (extends_startStepSuite b vmx)) fun _ => ?_
    refine extends_andThen (extends_stepWrap _ (extends_stopStepSuite .soft b vmx)) fun _ => ?_
    cases runHardStop with
    | false => simpa using extends_pure
    | true =>
      simp only [if_true]
      exact extends_andThen (extends_stepWrap _ (extends_suiteTryStart b)) fun _ =>
        extends_stepWrap _ (extends_stopStepSuite .hard b vmx)

theorem extends_scanPhase (scanRoots : Option (List String)) (b : Backend) :
    CallsExtend (scanPhase scanRoots b) := by
  unfold scanPhase
  cases scanRoots with
  | none => exact fun st => ⟨[], by simp [recEvent]⟩
  | some roots =>
    by_cases h : roots.length > 0
    · simp only [h, if_true]
      exact extends_andThen (extends_stepWrap _ (extends_callScanVmx b)) fun _ => extends_pure
    · exact fun st => ⟨[], by simp [h, recEvent]⟩

theorem extends_suiteTail (env : Env) (b : Backend) : CallsExtend (suiteTail env b) := by
  unfold suiteTail
  refine extends_andThen (extends_stepWrap _ (extends_callKeyStatus b)) fun keyPresent => ?_
  refine extends_andThen (extends_keyBootstrap _ b keyPresent) fun _ => ?_
  refine extends_andThen (extends_stepWrap _ (extends_callSshExec b)) fun _ => ?_
  refine extends_andThen (extends_stepWrap _ (extends_callListRunning b)) fun _ => ?_
  refine extends_andThen (extends_stepWrap _ (extends_callStatusForKnown b)) fun _ => ?_
  refine extends_andThen (extends_vmPhase _ _ b) fun _ => ?_
  refine extends_andThen (extends_stepWrap _ (extends_callScanDefault b)) fun _ => ?_
  refine extends_andThen (extends_scanPhase _ b) fun _ => ?_
  exact extends_andThen (extends_stepWrap _ (extends_callTraceList b)) fun _ => extends_pure

/-- In any run of the try-block, `trace_clear` is the very first
recorded backend call. -/
theorem suiteBody_calls (env : Env) (b : Backend) (st : SuiteSt) :
    ∃ l, (suiteBody env b st).2.calls = st.calls ++ "trace_clear" :: l := by
  unfold suiteBody
  rcases hfirst : stepWrap "trace_clear" st (callTraceClear b) with ⟨r, st1⟩
  have h1 : st1.calls = st.calls ++ ["trace_clear"] := by
    have := congrArg (fun p => p.2.calls) hfirst
    simp only at this
    rw [← this]
    cases hc : b.traceClear <;> simp [stepWrap, callTraceClear, liftRemote, hc, recEvent, recCall]
  cases r with
  | error e => exact ⟨[], by simp [andThen, hfirst, h1]⟩
  | ok a =>
    rcases extends_suiteTail env b st1 with ⟨l2, h2⟩
    exact ⟨l2, by simp [andThen, hfirst, h2, h1]⟩

/-- In every run that passes the environment check, the very first
backend invocation is `trace_clear` (the catch/finally clauses only
append further calls). -/
theorem trace_clear_first (env : Env) (b : Backend) (ssh : SshConfig)
    (h : buildSshFromEnv env = some ssh) :
    ∃ l, (runE2EInvokeSuite env b).calls = "trace_clear" :: l := by
  unfold runE2EInvokeSuite
  rw [h]
  rcases suiteBody_calls env b ⟨[], [], 0, 0, 0, 0⟩ with ⟨l, hl⟩
  simp only [List.nil_append] at hl
  rcases hs : suiteBody env b ⟨[], [], 0, 0, 0, 0⟩ with ⟨r, st⟩
  rw [hs] at hl
  simp only at hl
  cases r <;> by_cases hk : (envText env.keyText).isSome <;>
    simp [hs, hl, recCall, hk]

/-- Counterexample to C7: a run that passes the environment check (host
and user set) but has no vmx path configured never invokes
vmware_start_vm, so not every exposed operation is called at least once
in every run that passes the environment check. -/
theorem every_op_called_counterexample :
    (buildSshFromEnv envMin).isSome = true
  ∧ (runE2EInvokeSuite envMin bOkMin).ok = true
  ∧ (runE2EInvokeSuite envMin bOkMin).calls.contains "vmware_start_vm" = false := by
  refine ⟨by decide, by decide, by decide⟩

/-- C7 (amended): in every run that passes the environment check,
trace_clear is invoked before any other backend operation; each other
exposed operation is invoked at least once only when its enabling
configuration is present — in a fully configured run (vmx path, scan
roots, inline key text with the key initially absent, hard stop opted
in) with successful replies, every exposed backend operation is invoked
at least once, the run body's last call is trace_list followed only by
the finally-clause ssh_clear_private_key, and e2e_exit is invoked (with
code 0) by the gated wrapper; in a minimally configured run the
vmware_start_vm / vmware_stop_vm steps are skipped with a skip event
recorded instead. -/
theorem every_op_called_when_configured :
    (∀ env b ssh, buildSshFromEnv env = some ssh →
      ∃ l, (runE2EInvokeSuite env b).calls = "trace_clear" :: l)
  ∧ (runE2EInvokeSuite envFull bFull).ok = true
  ∧ (["trace_clear", "ssh_key_status", "ssh_set_private_key", "ssh_exec",
      "vmware_list_running", "vmware_status_for_known", "vmware_start_vm",
      "vmware_stop_vm", "vmware_scan_default_vmx", "vmware_scan_vmx",
      "trace_list", "ssh_clear_private_key"].all
        (fun op => (runE2EInvokeSuite envFull bFull).calls.contains op)) = true
  ∧ (runE2EInvokeSuite envFull bFull).calls.getLast? = some "ssh_clear_private_key"
  ∧ (runE2EInvokeSuite envFull bFull).calls.dropLast.getLast? = some "trace_list"
  ∧ (maybeRunE2EInvokeSuite envFull bFull false).exitCalls = [0]
  ∧ (⟨"vmware_start_stop_skipped", true, 0, none⟩ : E2EEvent) ∈
      (runE2EInvokeSuite envMin bOkMin).events := by
  refine ⟨fun env b ssh h => trace_clear_first env b ssh h,
    by decide, by decide, by decide, by decide, by decide, by decide⟩

/-- Witness for the amended C7: the generic trace_clear-first fact
applied to the fully configured run. -/
theorem every_op_called_when_configured_witness :
    ∃ l, (runE2EInvokeSuite envFull bFull).calls = "trace_clear" :: l :=
  every_op_called_when_configured.1 envFull bFull ⟨"h", "u", 22⟩ (by decide)

/-- C8: at the end of every harness run (flag enabled, guard clear),
exactly one machine-parseable line beginning with the fixed "[e2e] "
marker is emitted, containing PASS if and only if the suite passed and
FAIL otherwise, plus the JSON report of the events; e2e_exit is then
called exactly once, with code 0 on pass and code 1 on fail. -/
theorem report_line_and_exit (env : Env) (b : Backend)
    (h : envFlag env.e2e = true) :
    maybeRunE2EInvokeSuite env b false =
      ⟨true,
       ["[e2e] " ++ (if (runE2EInvokeSuite env b).ok then "PASS" else "FAIL")
          ++ " " ++ renderPayload b.nowIso (runE2EInvokeSuite env b)],
       [if (runE2EInvokeSuite env b).ok then 0 else 1]⟩
  ∧ (maybeRunE2EInvokeSuite env b false).lines.length = 1
  ∧ ((maybeRunE2EInvokeSuite env b false).exitCalls = [0] ↔
      (runE2EInvokeSuite env b).ok = true)
  ∧ ((maybeRunE2EInvokeSuite env b false).exitCalls = [1] ↔
      (runE2EInvokeSuite env b).ok = false) := by
  refine ⟨by simp [maybeRunE2EInvokeSuite, h], ?_, ?_, ?_⟩ <;>
    cases hok : (runE2EInvokeSuite env b).ok <;>
    simp [maybeRunE2EInvokeSuite, h, hok]

/-- Witness for C8: the fully configured run passes, so the wrapper
exits with code 0 and prints one PASS line. -/
theorem report_line_and_exit_witness :
    (maybeRunE2EInvokeSuite envFull bFull false).exitCalls = [0]
  ∧ (maybeRunE2EInvokeSuite envFull bFull false).lines.length = 1 :=
  ⟨(report_line_and_exit envFull bFull (by decide)).2.2.1.mpr (by decide),
   (report_line_and_exit envFull bFull (by decide)).2.1⟩

/-- C10: the E2E suite is gated and runs at most once per process: the
body runs only when the VITE_E2E flag, trimmed and lowercased, is one
of "1", "true", "yes" or "on"; when the flag is off, or when the
running guard is already set, the call returns without running the
suite, emitting a report line, or calling e2e_exit; when it runs it
sets the guard. -/
theorem e2e_gate_and_once (env : Env) (b : Backend) (g : Bool) (raw : String) :
    (envFlag (some raw) = true ↔
      jsToLower (jsTrim raw) ∈ (["1", "true", "yes", "on"] : List String))
  ∧ envFlag none = false
  ∧ (envFlag env.e2e = false → maybeRunE2EInvokeSuite env b g = ⟨g, [], []⟩)
  ∧ maybeRunE2EInvokeSuite env b true = ⟨true, [], []⟩
  ∧ (envFlag env.e2e = true →
      (maybeRunE2EInvokeSuite env b false).guardAfter = true
      ∧ (maybeRunE2EInvokeSuite env b false).lines.length = 1
      ∧ (maybeRunE2EInvokeSuite env b false).exitCalls.length = 1) := by
  refine ⟨?_, rfl, ?_, ?_, ?_⟩
  · simp only [envFlag, List.mem_cons, List.mem_singleton, List.not_mem_nil,
      or_false, Bool.or_eq_true, beq_iff_eq]
    tauto
  · intro h
    simp [maybeRunE2EInvokeSuite, h]
  · by_cases h : envFlag env.e2e = false <;> simp [maybeRunE2EInvokeSuite, h]
  · intro h
    refine ⟨?_, ?_, ?_⟩ <;> simp [maybeRunE2EInvokeSuite, h]

/-- Environment with the flag explicitly off. -/
def envOff : Env := { envMin with e2e := some "0" }

/-- Witness for C10: with the flag "0" nothing runs, and with the guard
already set nothing runs either. -/
theorem e2e_gate_and_once_witness :
    maybeRunE2EInvokeSuite envOff bOkMin false = ⟨false, [], []⟩
  ∧ maybeRunE2EInvokeSuite envMin bOkMin true = ⟨true, [], []⟩ :=
  ⟨(e2e_gate_and_once envOff bOkMin false "x").2.2.1 (by decide),
   (e2e_gate_and_once envMin bOkMin true "x").2.2.2.1⟩
